import Mathlib

/-!
The Boson camera nodelet of flir_boson_usb.

A shallow embedding of `src/nodelets/BosonCamera.cpp`:

* `agcBasicLinear`, the two-pass linear gain control (source lines 138-207);
* `openCamera`, `closeCamera` and `onInit`, the device bring-up and shutdown
  (source lines 35-133 and 209-383);
* `captureAndPublish`, the capture cycle, as far as the frames and the three
  temperatures it computes (source lines 385-590).

`unsigned int` is a natural number below `2 ^ 32`, every operation on it
reduced modulo `2 ^ 32`.  The `double` arithmetic of the source is a parameter
of the model (`Arith`): the definitions use its operations where the source
uses `+`, `-`, `*`, `/`, `<` and the conversions between `double` and
`unsigned int`, and the general theorems hold for every such arithmetic.
`exactArith` instantiates it with exact rational arithmetic, `doubleArith` with
the rounding of IEEE 754 binary64.
-/

namespace FlirBoson

/-! ## Arithmetic -/

/-- The floating-point operations that the source uses.  `toUInt` is the
conversion of a `double` to `unsigned int` (truncation toward zero); it is
`none` where C++ leaves the conversion undefined (the truncated value does not
fit in an `unsigned int`). -/
structure Arith where
  F : Type
  ofUInt : Nat → F
  lit100 : F
  lit273_15 : F
  add : F → F → F
  sub : F → F → F
  mul : F → F → F
  div : F → F → F
  lt : F → F → Bool
  toUInt : F → Option Nat

/-- Conversion of a rational to `unsigned int`: truncation toward zero, defined
when the truncated value lies in `[0, 2 ^ 32)`. -/
def ratToUInt (q : ℚ) : Option Nat :=
  if -1 < q ∧ q < 4294967296 then some (Int.toNat (Rat.floor q)) else none

/-- Exact rational arithmetic. -/
def exactArith : Arith where
  F := ℚ
  ofUInt := fun n => (n : ℚ)
  lit100 := 100
  lit273_15 := 27315 / 100
  add := fun a b => a + b
  sub := fun a b => a - b
  mul := fun a b => a * b
  div := fun a b => a / b
  lt := fun a b => decide (a < b)
  toUInt := ratToUInt

/-- A finite binary floating-point number, of value `m * 2 ^ e`. -/
structure Dyadic where
  m : Int
  e : Int
deriving DecidableEq, Repr

/-- The number of binary digits of `n`, for `n < 2 ^ fuel`. -/
def bitLen : Nat → Nat → Nat
  | 0, _ => 0
  | fuel + 1, n => if n = 0 then 0 else 1 + bitLen fuel (n / 2)

/-- The quotient `N / D` rounded to the nearest integer, ties to even. -/
def roundNat (N D : Nat) : Nat :=
  if 2 * (N % D) > D ∨ (2 * (N % D) = D ∧ (N / D) % 2 = 1) then N / D + 1 else N / D

/-- The shift `s` for which `a / d * 2 ^ s` has 53 binary digits before the
point, for `a` and `d` other than zero. -/
def roundShift (a d : Nat) : Int :=
  let s0 : Int := 52 - ((bitLen 256 a : Int) - (bitLen 256 d : Int))
  if a * 2 ^ s0.toNat / (d * 2 ^ (-s0).toNat) < 2 ^ 52 then s0 + 1 else s0

/-- Rounding of IEEE 754 binary64, to nearest and ties to even: the number with
a significand of 53 bits that is nearest to `n / d * 2 ^ e`.  The exponent
range is not modelled (no overflow, no subnormal number). -/
def roundDyadic (n : Int) (d : Nat) (e : Int) : Dyadic :=
  if n = 0 then { m := 0, e := 0 } else
  let s := roundShift n.natAbs d
  let q := roundNat (n.natAbs * 2 ^ s.toNat) (d * 2 ^ (-s).toNat)
  { m := if n < 0 then -(q : Int) else (q : Int), e := e - s }

/-- Addition of `double`. -/
def Dyadic.add (x y : Dyadic) : Dyadic :=
  roundDyadic (x.m * 2 ^ (x.e - min x.e y.e).toNat + y.m * 2 ^ (y.e - min x.e y.e).toNat) 1
    (min x.e y.e)

/-- Subtraction of `double`. -/
def Dyadic.sub (x y : Dyadic) : Dyadic :=
  roundDyadic (x.m * 2 ^ (x.e - min x.e y.e).toNat - y.m * 2 ^ (y.e - min x.e y.e).toNat) 1
    (min x.e y.e)

/-- Multiplication of `double`. -/
def Dyadic.mul (x y : Dyadic) : Dyadic := roundDyadic (x.m * y.m) 1 (x.e + y.e)

/-- Division of `double` by a number other than zero (the source divides by
`100.` only); the quotient by zero, an infinity in IEEE 754, is not modelled. -/
def Dyadic.div (x y : Dyadic) : Dyadic :=
  if y.m = 0 then { m := 0, e := 0 } else
  roundDyadic (if y.m < 0 then -x.m else x.m) y.m.natAbs (x.e - y.e)

/-- The comparison `x < y` of `double`. -/
def Dyadic.lt (x y : Dyadic) : Bool :=
  decide (x.m * 2 ^ (x.e - min x.e y.e).toNat < y.m * 2 ^ (y.e - min x.e y.e).toNat)

/-- The integer that the conversion of a `double` to an integer type gives:
the value truncated toward zero. -/
def Dyadic.trunc (x : Dyadic) : Int :=
  if 0 ≤ x.e then x.m * 2 ^ x.e.toNat
  else if x.m < 0 then -((x.m.natAbs / 2 ^ (-x.e).toNat : Nat) : Int)
  else ((x.m.natAbs / 2 ^ (-x.e).toNat : Nat) : Int)

/-- Conversion of a `double` to `unsigned int`, defined when the truncated
value lies in `[0, 2 ^ 32)`. -/
def Dyadic.toUInt (x : Dyadic) : Option Nat :=
  if 0 ≤ x.trunc ∧ x.trunc < 4294967296 then some x.trunc.toNat else none

/-- The arithmetic of IEEE 754 `double`, on numbers away from the ends of the
exponent range: each operation is the exact one followed by `roundDyadic`, the
literals `100.` and `273.15` are the nearest `double`s. -/
def doubleArith : Arith where
  F := Dyadic
  ofUInt := fun n => roundDyadic (n : Int) 1 0
  lit100 := roundDyadic 100 1 0
  lit273_15 := roundDyadic 27315 100 0
  add := Dyadic.add
  sub := Dyadic.sub
  mul := Dyadic.mul
  div := Dyadic.div
  lt := Dyadic.lt
  toUInt := Dyadic.toUInt

/-- Width of `unsigned int`. -/
def UINT_MOD : Nat := 4294967296

/-- Subtraction of `unsigned int`. -/
def usub (a b : Nat) : Nat := (a + UINT_MOD - b % UINT_MOD) % UINT_MOD

/-- Multiplication of `unsigned int`. -/
def umul (a b : Nat) : Nat := (a * b) % UINT_MOD

/-- Addition of `unsigned int`. -/
def uadd (a b : Nat) : Nat := (a + b) % UINT_MOD

/-- Left shift of `unsigned int`. -/
def ushl (a k : Nat) : Nat := (a <<< k) % UINT_MOD

/-! ## Matrices -/

/-- An OpenCV matrix, as the function `at(i, j)` reads: row, then column.
`Mat::at` checks no bound, so the function is total. -/
abbrev Mat := Nat → Nat → Nat

/-- The assignment `m->at(i, j) = v`. -/
def Mat.set (m : Mat) (i j v : Nat) : Mat :=
  fun r c => if r = i ∧ c = j then v else m r c

/-! ## `agcBasicLinear` -/

/-- The expression `(value1 << 8) + value2` of lines 157 and 189. -/
def reconstruct (value1 value2 : Nat) : Nat := uadd (ushl value1 8) value2

/-- The value `value3` of pixel `(i, j)`: lines 155-157 and 187-189. -/
def count (input_16 : Mat) (i j : Nat) : Nat :=
  let value1 := input_16 i (j * 2 + 1) &&& 0xFF
  let value2 := input_16 i (j * 2) &&& 0xFF
  reconstruct value1 value2

/-- The running maximum and minimum of the first pass. -/
structure Scan where
  max1 : Nat
  min1 : Nat
deriving DecidableEq, Repr

/-- Body of the inner loop of the first pass, lines 155-163. -/
def scanPixel (input_16 : Mat) (i : Nat) (s : Scan) (j : Nat) : Scan :=
  let value3 := count input_16 i j
  let min1 := if value3 ≤ s.min1 then value3 else s.min1
  let max1 := if value3 ≥ s.max1 then value3 else s.max1
  { max1 := max1, min1 := min1 }

/-- Body of the outer loop of the first pass, lines 153-164. -/
def scanRow (input_16 : Mat) (width : Nat) (s : Scan) (i : Nat) : Scan :=
  (List.range width).foldl (scanPixel input_16 i) s

/-- The first pass, lines 146-165. -/
def scanPass (input_16 : Mat) (height width : Nat) : Scan :=
  (List.range height).foldl (scanRow input_16 width) { max1 := 0, min1 := 0xFFFF }

/-- The expression `x / 100. - 273.15` of lines 166, 167 and 530. -/
def toCelsius (A : Arith) (x : Nat) : A.F :=
  A.sub (A.div (A.ofUInt x) A.lit100) A.lit273_15

/-- The assignment `max1 = (limit + 273.15) * 100` of lines 179 and 180. -/
def toCount (A : Arith) (limit : A.F) : Option Nat :=
  (A.toUInt (A.mul (A.add limit A.lit273_15) A.lit100)).map (fun v => v % UINT_MOD)

/-- The two output matrices during the second pass.  `fault` is set when the
division of line 201 has a zero divisor: the behaviour is undefined from there
on, and the model executes no further statement. -/
structure Scale where
  output_8 : Mat
  output_16 : Mat
  fault : Bool

/-- Body of the inner loop of the second pass, lines 187-204. -/
def scalePixel (input_16 : Mat) (max1 min1 : Nat) (i : Nat) (s : Scale) (j : Nat) : Scale :=
  if s.fault then s else
  let value3 := count input_16 i j
  let value5 := value3
  let value5 := if value5 > max1 then max1 else value5
  let value5 := if value5 < min1 then min1 else value5
  if usub max1 min1 = 0 then { s with fault := true } else
  let value4 := umul 255 (usub value5 min1) / usub max1 min1
  { output_8 := s.output_8.set i j (value4 % 256),
    output_16 := s.output_16.set i j (value3 % 65536),
    fault := false }

/-- The value `value4` that line 201 computes for a pixel of count `value3`,
as a function of its own: the clamp of lines 190-199 and the quotient. -/
def value4 (value3 max1 min1 : Nat) : Nat :=
  let value5 := value3
  let value5 := if value5 > max1 then max1 else value5
  let value5 := if value5 < min1 then min1 else value5
  umul 255 (usub value5 min1) / usub max1 min1

/-- The value `value5` that lines 190-199 leave for a pixel of count `value3`:
`value3`, lowered to `max1` when it is above, then raised to `min1` when it is
below. -/
def value5 (value3 max1 min1 : Nat) : Nat :=
  let value5 := value3
  let value5 := if value5 > max1 then max1 else value5
  let value5 := if value5 < min1 then min1 else value5
  value5

/-- Body of the outer loop of the second pass, lines 185-205. -/
def scaleRow (input_16 : Mat) (max1 min1 width : Nat) (s : Scale) (i : Nat) : Scale :=
  (List.range width).foldl (scalePixel input_16 max1 min1 i) s

/-- The second pass, lines 183-206. -/
def scalePass (input_16 : Mat) (max1 min1 height width : Nat) (output_8 output_16 : Mat) :
    Scale :=
  (List.range height).foldl (scaleRow input_16 max1 min1 width)
    { output_8 := output_8, output_16 := output_16, fault := false }

/-- How a call of `agcBasicLinear` ends. -/
inductive Outcome where
  /-- The function returns. -/
  | returned
  /-- Line 175 throws `std::range_error`. -/
  | range_error
  /-- A conversion of line 179 or 180 is undefined. -/
  | conversion_undefined
  /-- Line 201 divides by zero. -/
  | division_by_zero
deriving DecidableEq, Repr

/-- What `agcBasicLinear` leaves behind: the two output matrices and the two
temperatures it writes through its pointer arguments. -/
structure AgcResult (A : Arith) where
  outcome : Outcome
  output_8 : Mat
  output_16 : Mat
  max_temp : A.F
  min_temp : A.F

/-- The function `BosonCamera::agcBasicLinear`, lines 138-207.  The members
`max_temp_limit` and `min_temp_limit` are the first two arguments; `output_8`
and `output_16` are the matrices as they are before the call. -/
def agcBasicLinear (A : Arith) (max_temp_limit min_temp_limit : A.F)
    (input_16 : Mat) (output_8 output_16 : Mat) (height width : Nat) : AgcResult A :=
  let s := scanPass input_16 height width
  let max_temp := toCelsius A s.max1
  let min_temp := toCelsius A s.min1
  if A.lt max_temp_limit min_temp_limit then
    { outcome := .range_error, output_8 := output_8, output_16 := output_16,
      max_temp := max_temp, min_temp := min_temp }
  else
    match toCount A max_temp_limit, toCount A min_temp_limit with
    | some max1, some min1 =>
      let r := scalePass input_16 max1 min1 height width output_8 output_16
      { outcome := if r.fault then .division_by_zero else .returned,
        output_8 := r.output_8, output_16 := r.output_16,
        max_temp := max_temp, min_temp := min_temp }
    | _, _ =>
      { outcome := .conversion_undefined, output_8 := output_8, output_16 := output_16,
        max_temp := max_temp, min_temp := min_temp }

/-! ## The device -/

/-- The member `video_mode`. -/
inductive VideoMode where
  | YUV
  | RAW16
deriving DecidableEq, Repr

/-- The member `sensor_type`. -/
inductive SensorType where
  | Boson320
  | Boson640
deriving DecidableEq, Repr

/-- The pixel formats that `openCamera` requests. -/
inductive PixelFormat where
  | Y16
  | YVU420
deriving DecidableEq, Repr

/-- A scripted device: the result of each request of the bring-up and of the
shutdown (`true` when the call succeeds), and the single-planar capture flag
`cap.capabilities & V4L2_CAP_VIDEO_CAPTURE` that `VIDIOC_QUERYCAP` reports. -/
structure Device where
  open_ok : Bool
  querycap_ok : Bool
  cap_video_capture : Bool
  s_fmt_ok : Bool
  reqbufs_ok : Bool
  querybuf_ok : Bool
  mmap_ok : Bool
  streamon_ok : Bool
  streamoff_ok : Bool
deriving DecidableEq, Repr

/-- A request to the device, with the arguments that the source sets. -/
inductive Call where
  | open_dev
  | querycap
  | s_fmt (pixelformat : PixelFormat) (width height : Nat)
  | reqbufs (count : Nat)
  | querybuf (index : Nat)
  | mmap
  | streamon
  | streamoff
  | close
deriving DecidableEq, Repr

/-- The device side of the nodelet: the requests issued so far (oldest first),
whether the descriptor `fd` is open, whether the device streams, and the
members `width` and `height`. -/
structure Handle where
  calls : List Call
  fd_open : Bool
  streaming : Bool
  width : Nat
  height : Nat
deriving DecidableEq, Repr

/-- The handle of a freshly constructed nodelet. -/
def Handle.init : Handle :=
  { calls := [], fd_open := false, streaming := false, width := 0, height := 0 }

/-- The function `BosonCamera::openCamera`, lines 209-366. -/
def openCamera (d : Device) (video_mode : VideoMode) (sensor_type : SensorType)
    (h : Handle) : Bool × Handle :=
  -- line 212
  let h := { h with calls := h.calls ++ [Call.open_dev], fd_open := d.open_ok }
  if !d.open_ok then (false, h) else
  -- line 219
  let h := { h with calls := h.calls ++ [Call.querycap] }
  if !d.querycap_ok then (false, h) else
  -- line 226
  if !d.cap_video_capture then (false, h) else
  -- lines 236-269
  let fmt : PixelFormat × Nat × Nat :=
    match video_mode with
    | .RAW16 =>
      match sensor_type with
      | .Boson320 => (.Y16, 320, 256)
      | .Boson640 => (.Y16, 640, 512)
    | .YUV => (.YVU420, 640, 512)
  let h := { h with width := fmt.2.1, height := fmt.2.2 }
  -- line 272
  let h := { h with calls := h.calls ++ [Call.s_fmt fmt.1 h.width h.height] }
  if !d.s_fmt_ok then (false, h) else
  -- lines 284-289
  let h := { h with calls := h.calls ++ [Call.reqbufs 1] }
  if !d.reqbufs_ok then (false, h) else
  -- lines 301-307
  let h := { h with calls := h.calls ++ [Call.querybuf 0] }
  if !d.querybuf_ok then (false, h) else
  -- lines 316-319
  let h := { h with calls := h.calls ++ [Call.mmap] }
  if !d.mmap_ok then (false, h) else
  -- lines 330-331
  let h := { h with calls := h.calls ++ [Call.streamon], streaming := d.streamon_ok }
  if !d.streamon_ok then (false, h) else
  (true, h)

/-- The function `BosonCamera::closeCamera`, lines 368-383. -/
def closeCamera (d : Device) (h : Handle) : Bool × Handle :=
  -- line 373
  let h := { h with calls := h.calls ++ [Call.streamoff],
                    streaming := h.streaming && !d.streamoff_ok }
  if !d.streamoff_ok then (false, h) else
  -- line 380
  let h := { h with calls := h.calls ++ [Call.close], fd_open := false }
  (true, h)

/-- What `onInit` leaves behind: the device side, whether `ros::shutdown` was
called, and whether the capture timer was created. -/
structure InitResult where
  handle : Handle
  shutdown : Bool
  capture_timer : Bool
deriving DecidableEq, Repr

/-- The value that lines 77-89 of `onInit` give `video_mode`; `none` when
they set `exit` instead. -/
def videoModeOfString (video_mode_str : String) : Option VideoMode :=
  if video_mode_str = "RAW16" then some .RAW16
  else if video_mode_str = "YUV" then some .YUV
  else none

/-- The value that lines 91-105 of `onInit` give `sensor_type`; `none` when
they set `exit` instead. -/
def sensorTypeOfString (sensor_type_str : String) : Option SensorType :=
  if sensor_type_str = "Boson_320" ∨ sensor_type_str = "boson_320" then some .Boson320
  else if sensor_type_str = "Boson_640" ∨ sensor_type_str = "boson_640" then some .Boson640
  else none

/-- The function `BosonCamera::onInit`, lines 35-133, as far as the device is
concerned: the two parameters that can set `exit`, the call of `openCamera` and
the creation of the capture timer. -/
def onInit (d : Device) (video_mode_str sensor_type_str : String) : InitResult :=
  let exit := false
  -- lines 77-89
  let video_mode := videoModeOfString video_mode_str
  let exit := if video_mode.isNone then true else exit
  -- lines 91-105
  let sensor_type := sensorTypeOfString sensor_type_str
  let exit := if sensor_type.isNone then true else exit
  -- lines 117-120
  let opened : Bool × Handle :=
    match exit, video_mode, sensor_type with
    | false, some vm, some st => openCamera d vm st Handle.init
    | _, _, _ => (true, Handle.init)
  let exit := if !exit then (if opened.1 then exit else true) else exit
  -- lines 122-132
  if exit then { handle := opened.2, shutdown := true, capture_timer := false }
  else { handle := opened.2, shutdown := false, capture_timer := true }

/-! ## The capture cycle -/

/-- The members of the nodelet that a capture cycle reads and writes. -/
structure Capture (A : Arith) where
  video_mode : VideoMode
  zoom_enable : Bool
  height : Nat
  width : Nat
  max_temp_limit : A.F
  min_temp_limit : A.F
  point_x : Nat
  point_y : Nat
  thermal8_linear : Mat
  thermal16_linear : Mat
  max_temp : A.F
  min_temp : A.F
  ptr_temp : A.F

/-- The function `BosonCamera::captureAndPublish`, lines 385-590, as far as the
members of `Capture`: `qbuf_ok` and `dqbuf_ok` are the results of the two
requests of lines 395 and 403, `thermal16` is the buffer after the dequeue.  The
result is `none` when `agcBasicLinear` has undefined behaviour.  Messages,
`thermal8_norm`, the heat map and the overlay are not modelled. -/
def captureAndPublish (A : Arith) (qbuf_ok dqbuf_ok : Bool) (thermal16 : Mat)
    (s : Capture A) : Option (Capture A) :=
  if !qbuf_ok then some s else
  if !dqbuf_ok then some s else
  match s.video_mode with
  | .RAW16 =>
    -- lines 414-422: the range error is caught and logged
    let r := agcBasicLinear A s.max_temp_limit s.min_temp_limit thermal16
      s.thermal8_linear s.thermal16_linear s.height s.width
    match r.outcome with
    | .conversion_undefined => none
    | .division_by_zero => none
    | _ =>
      let s := { s with thermal8_linear := r.output_8, thermal16_linear := r.output_16,
                        max_temp := r.max_temp, min_temp := r.min_temp }
      if !s.zoom_enable then
        -- lines 526-531
        some { s with ptr_temp := toCelsius A (s.thermal16_linear s.point_y s.point_x) }
      else some s
  | .YUV => some s

/-! ## Specification-side definitions -/

/-- The counts of the pixels of the first `height` rows and `width` columns. -/
def pixelCounts (input_16 : Mat) (height width : Nat) : Set Nat :=
  {c | ∃ i j, i < height ∧ j < width ∧ count input_16 i j = c}

/-- What a run of the first pass over a set of pixels establishes: `t` is the
state after, `s` the state before, `P` says which counts were visited. -/
structure ScanStep (P : Nat → Prop) (s t : Scan) : Prop where
  max_mono : s.max1 ≤ t.max1
  min_mono : t.min1 ≤ s.min1
  le_max : ∀ c, P c → c ≤ t.max1
  min_le : ∀ c, P c → t.min1 ≤ c
  max_mem : t.max1 = s.max1 ∨ P t.max1
  min_mem : t.min1 = s.min1 ∨ P t.min1

/-- The reconstructed count clamped to `[lo, hi]`. -/
def clampCount (c lo hi : Nat) : Nat := max lo (min c hi)

/-- The 8-bit value that the scale pass is to produce for a pixel of count `c`:
`floor (255 * (clamped - min1) / (max1 - min1))`. -/
def scaled (c min1 max1 : Nat) : Nat :=
  255 * (clampCount c min1 max1 - min1) / (max1 - min1)

/-- The requests of a complete bring-up, in the order of the interface. -/
def bringUp (video_mode : VideoMode) (sensor_type : SensorType) : List Call :=
  let fmt : PixelFormat × Nat × Nat :=
    match video_mode, sensor_type with
    | .RAW16, .Boson320 => (.Y16, 320, 256)
    | .RAW16, .Boson640 => (.Y16, 640, 512)
    | .YUV, _ => (.YVU420, 640, 512)
  [Call.open_dev, Call.querycap, Call.s_fmt fmt.1 fmt.2.1 fmt.2.2, Call.reqbufs 1,
   Call.querybuf 0, Call.mmap, Call.streamon]

/-- The results of the steps of the bring-up, in order; the step of
`VIDIOC_QUERYCAP` succeeds when the request does and the capability is there. -/
def stepResults (d : Device) : List Bool :=
  [d.open_ok, d.querycap_ok && d.cap_video_capture, d.s_fmt_ok, d.reqbufs_ok,
   d.querybuf_ok, d.mmap_ok, d.streamon_ok]

/-- How many steps are taken when they have these results: all up to and
including the first that fails. -/
def stepsTaken : List Bool → Nat
  | [] => 0
  | true :: rest => 1 + stepsTaken rest
  | false :: _ => 1

/-! ## Sample data -/

/-- A matrix given by its rows; an element outside the rows is `0`. -/
def matOfRows (rows : List (List Nat)) : Mat :=
  fun i k => (rows.getD i []).getD k 0

/-- The matrix of zeroes. -/
def zeroMat : Mat := fun _ _ => 0

/-- A 4x4 RAW16 frame, low byte first, with counts from 25000 to 30000:
row 0 is 25000, 30000, 27500, 26000; row 1 is 25500, 29000, 28000, 25000;
row 2 is 30000, 27500, 26500, 29500; row 3 is 25000, 26000, 27000, 28500. -/
def frame4x4 : Mat :=
  matOfRows
    [[0xA8, 0x61, 0x30, 0x75, 0x6C, 0x6B, 0x90, 0x65],
     [0x9C, 0x63, 0x48, 0x71, 0x60, 0x6D, 0xA8, 0x61],
     [0x30, 0x75, 0x6C, 0x6B, 0x84, 0x67, 0x3C, 0x73],
     [0xA8, 0x61, 0x90, 0x65, 0x78, 0x69, 0x54, 0x6F]]

/-- A 1x1 RAW16 frame whose pixel has count 30000. -/
def frame1x1 : Mat := matOfRows [[0x30, 0x75]]

/-- A device on which every request succeeds. -/
def goodDevice : Device :=
  { open_ok := true, querycap_ok := true, cap_video_capture := true, s_fmt_ok := true,
    reqbufs_ok := true, querybuf_ok := true, mmap_ok := true, streamon_ok := true,
    streamoff_ok := true }

/-- A lower limit that converts to the count 25000. -/
def limitLow : ℚ := -23149 / 1000

/-- An upper limit that converts to the count 30000. -/
def limitHigh : ℚ := 26851 / 1000

/-- The temperature of the count 30000. -/
def temp30000 : ℚ := 2685 / 100

/-- A camera state in RAW16 mode without zoom, 4x4, with limits that convert to
25000 and 30000 and the pointer at column 2 of row 1. -/
def sampleCapture : Capture exactArith :=
  { video_mode := .RAW16, zoom_enable := false, height := 4, width := 4,
    max_temp_limit := limitHigh, min_temp_limit := limitLow,
    point_x := 2, point_y := 1,
    thermal8_linear := zeroMat, thermal16_linear := zeroMat,
    max_temp := (0 : ℚ), min_temp := (0 : ℚ), ptr_temp := (0 : ℚ) }

/-- The state `sampleCapture` with zoom enabled and a pointer temperature left
by an earlier cycle. -/
def zoomCapture : Capture exactArith :=
  { sampleCapture with zoom_enable := true, ptr_temp := (-1000 : ℚ) }

/-- The state `sampleCapture` with both limits at 26.851. -/
def equalCapture : Capture exactArith :=
  { sampleCapture with min_temp_limit := limitHigh }

/-- The `double` nearest to 26.851. -/
def limitHighD : Dyadic := roundDyadic 26851 1000 0

/-- The `double` nearest to 26.85. -/
def limitMidD : Dyadic := roundDyadic 2685 100 0

/-- A device on which only `VIDIOC_STREAMON` fails. -/
def streamonFails : Device := { goodDevice with streamon_ok := false }

/-- A device on which only `VIDIOC_STREAMOFF` fails. -/
def streamoffFails : Device := { goodDevice with streamoff_ok := false }

/-! # Theorems -/

/-! ## Unsigned arithmetic and counts -/

theorem and_255_lt (x : Nat) : x &&& 0xFF < 256 :=
  Nat.lt_succ_of_le Nat.and_le_right

theorem and_255_eq_mod (x : Nat) : x &&& 0xFF = x % 256 :=
  Nat.and_pow_two_sub_one_eq_mod x 8

theorem reconstruct_eq (value1 value2 : Nat) (h1 : value1 < 256) (h2 : value2 < 256) :
    reconstruct value1 value2 = value1 * 256 + value2 := by
  unfold reconstruct uadd ushl UINT_MOD
  rw [Nat.shiftLeft_eq]
  omega

theorem reconstruct_eq_or (value1 value2 : Nat) (h1 : value1 < 256) (h2 : value2 < 256) :
    reconstruct value1 value2 = (value1 <<< 8) ||| value2 := by
  have h := Nat.mul_add_lt_is_or (i := 8) (b := value2) (by simpa using h2) value1
  rw [reconstruct_eq value1 value2 h1 h2, Nat.shiftLeft_eq, Nat.mul_comm value1 (2 ^ 8), ← h]
  omega

theorem count_eq (input_16 : Mat) (i j : Nat) :
    count input_16 i j
      = (input_16 i (j * 2 + 1) &&& 0xFF) * 256 + (input_16 i (j * 2) &&& 0xFF) :=
  reconstruct_eq _ _ (and_255_lt _) (and_255_lt _)

theorem count_lt (input_16 : Mat) (i j : Nat) : count input_16 i j < 65536 := by
  have h1 := and_255_lt (input_16 i (j * 2 + 1))
  have h2 := and_255_lt (input_16 i (j * 2))
  rw [count_eq]
  omega

/-! ## The first pass -/

theorem scanRow_step (input_16 : Mat) (i : Nat) (s : Scan) (n : Nat) :
    ScanStep (fun c => ∃ j, j < n ∧ count input_16 i j = c) s (scanRow input_16 n s i) := by
  induction n with
  | zero =>
    refine ⟨le_refl _, le_refl _, ?_, ?_, Or.inl rfl, Or.inl rfl⟩
    · rintro c ⟨j, hj, _⟩; omega
    · rintro c ⟨j, hj, _⟩; omega
  | succ n ih =>
    have hrow : scanRow input_16 (n + 1) s i
        = scanPixel input_16 i (scanRow input_16 n s i) n := by
      simp [scanRow, List.range_succ, List.foldl_append]
    rw [hrow]
    generalize scanRow input_16 n s i = t at ih
    obtain ⟨h1, h2, h3, h4, h5, h6⟩ := ih
    unfold scanPixel
    refine ⟨?_, ?_, ?_, ?_, ?_, ?_⟩
    · dsimp only; split_ifs <;> omega
    · dsimp only; split_ifs <;> omega
    · rintro c ⟨j, hj, rfl⟩
      rcases Nat.lt_succ_iff_lt_or_eq.mp hj with hlt | rfl
      · have := h3 _ ⟨j, hlt, rfl⟩
        dsimp only; split_ifs <;> omega
      · dsimp only; split_ifs <;> omega
    · rintro c ⟨j, hj, rfl⟩
      rcases Nat.lt_succ_iff_lt_or_eq.mp hj with hlt | rfl
      · have := h4 _ ⟨j, hlt, rfl⟩
        dsimp only; split_ifs <;> omega
      · dsimp only; split_ifs <;> omega
    · dsimp only
      split_ifs with hc
      · exact Or.inr ⟨n, Nat.lt_succ_self n, rfl⟩
      · rcases h5 with h5 | ⟨j, hj, h5⟩
        · exact Or.inl h5
        · exact Or.inr ⟨j, Nat.lt_succ_of_lt hj, h5⟩
    · dsimp only
      split_ifs with hc
      · exact Or.inr ⟨n, Nat.lt_succ_self n, rfl⟩
      · rcases h6 with h6 | ⟨j, hj, h6⟩
        · exact Or.inl h6
        · exact Or.inr ⟨j, Nat.lt_succ_of_lt hj, h6⟩

theorem scanFrame_step (input_16 : Mat) (width : Nat) (s : Scan) (m : Nat) :
    ScanStep (fun c => c ∈ pixelCounts input_16 m width) s
      ((List.range m).foldl (scanRow input_16 width) s) := by
  induction m with
  | zero =>
    refine ⟨le_refl _, le_refl _, ?_, ?_, Or.inl rfl, Or.inl rfl⟩
    · rintro c ⟨i, j, hi, _⟩; omega
    · rintro c ⟨i, j, hi, _⟩; omega
  | succ m ih =>
    rw [List.range_succ, List.foldl_append]
    generalize (List.range m).foldl (scanRow input_16 width) s = t at ih
    obtain ⟨h1, h2, h3, h4, h5, h6⟩ := ih
    obtain ⟨r1, r2, r3, r4, r5, r6⟩ := scanRow_step input_16 m t width
    simp only [List.foldl_cons, List.foldl_nil]
    generalize scanRow input_16 width t m = u at r1 r2 r3 r4 r5 r6
    refine ⟨by omega, by omega, ?_, ?_, ?_, ?_⟩
    · rintro c ⟨i, j, hi, hj, rfl⟩
      rcases Nat.lt_succ_iff_lt_or_eq.mp hi with hlt | rfl
      · have := h3 _ ⟨i, j, hlt, hj, rfl⟩
        omega
      · exact r3 _ ⟨j, hj, rfl⟩
    · rintro c ⟨i, j, hi, hj, rfl⟩
      rcases Nat.lt_succ_iff_lt_or_eq.mp hi with hlt | rfl
      · have := h4 _ ⟨i, j, hlt, hj, rfl⟩
        omega
      · exact r4 _ ⟨j, hj, rfl⟩
    · rcases r5 with r5 | ⟨j, hj, r5⟩
      · rcases h5 with h5 | ⟨i, j, hi, hj, h5⟩
        · exact Or.inl (r5.trans h5)
        · exact Or.inr ⟨i, j, Nat.lt_succ_of_lt hi, hj, h5.trans r5.symm⟩
      · exact Or.inr ⟨m, j, Nat.lt_succ_self m, hj, r5⟩
    · rcases r6 with r6 | ⟨j, hj, r6⟩
      · rcases h6 with h6 | ⟨i, j, hi, hj, h6⟩
        · exact Or.inl (r6.trans h6)
        · exact Or.inr ⟨i, j, Nat.lt_succ_of_lt hi, hj, h6.trans r6.symm⟩
      · exact Or.inr ⟨m, j, Nat.lt_succ_self m, hj, r6⟩

theorem scanPass_isGreatest (input_16 : Mat) (height width : Nat)
    (hh : 0 < height) (hw : 0 < width) :
    IsGreatest (pixelCounts input_16 height width) (scanPass input_16 height width).max1 := by
  obtain ⟨-, -, h3, -, h5, -⟩ :=
    scanFrame_step input_16 width { max1 := 0, min1 := 0xFFFF } height
  refine ⟨?_, fun c hc => h3 c hc⟩
  rcases h5 with h5 | h5
  · have h0 := h3 _ ⟨0, 0, hh, hw, rfl⟩
    refine ⟨0, 0, hh, hw, ?_⟩
    unfold scanPass
    rw [h5]
    rw [h5] at h0
    exact Nat.le_zero.mp h0
  · exact h5

theorem scanPass_isLeast (input_16 : Mat) (height width : Nat)
    (hh : 0 < height) (hw : 0 < width) :
    IsLeast (pixelCounts input_16 height width) (scanPass input_16 height width).min1 := by
  obtain ⟨-, -, -, h4, -, h6⟩ :=
    scanFrame_step input_16 width { max1 := 0, min1 := 0xFFFF } height
  refine ⟨?_, fun c hc => h4 c hc⟩
  rcases h6 with h6 | h6
  · have h0 := h4 _ ⟨0, 0, hh, hw, rfl⟩
    have hlt := count_lt input_16 0 0
    refine ⟨0, 0, hh, hw, ?_⟩
    unfold scanPass
    rw [h6]
    rw [h6] at h0
    simp only at h0 ⊢
    omega
  · exact h6

/-! ## The second pass -/

theorem scalePixel_ok (input_16 : Mat) (max1 min1 i j : Nat) (s : Scale)
    (hd : usub max1 min1 ≠ 0) (hs : s.fault = false) :
    scalePixel input_16 max1 min1 i s j =
      { output_8 := s.output_8.set i j (value4 (count input_16 i j) max1 min1 % 256),
        output_16 := s.output_16.set i j (count input_16 i j % 65536),
        fault := false } := by
  simp [scalePixel, value4, hd, hs]

theorem scaleRow_ok (input_16 : Mat) (max1 min1 i : Nat) (hd : usub max1 min1 ≠ 0)
    (s : Scale) (hs : s.fault = false) (n : Nat) :
    (scaleRow input_16 max1 min1 n s i).fault = false ∧
    (∀ r c, (scaleRow input_16 max1 min1 n s i).output_8 r c =
      if r = i ∧ c < n then value4 (count input_16 i c) max1 min1 % 256 else s.output_8 r c) ∧
    (∀ r c, (scaleRow input_16 max1 min1 n s i).output_16 r c =
      if r = i ∧ c < n then count input_16 i c % 65536 else s.output_16 r c) := by
  induction n with
  | zero => simp [scaleRow, hs]
  | succ n ih =>
    have hrow : scaleRow input_16 max1 min1 (n + 1) s i
        = scalePixel input_16 max1 min1 i (scaleRow input_16 max1 min1 n s i) n := by
      simp [scaleRow, List.range_succ, List.foldl_append]
    rw [hrow]
    generalize scaleRow input_16 max1 min1 n s i = t at ih
    obtain ⟨h1, h2, h3⟩ := ih
    rw [scalePixel_ok input_16 max1 min1 i n t hd h1]
    refine ⟨rfl, ?_, ?_⟩
    · intro r c
      simp only [Mat.set, h2]
      by_cases hr : r = i
      · by_cases hc : c = n
        · subst hc; simp [hr]
        · have : c < n + 1 ↔ c < n := by omega
          simp [hr, hc, this]
      · simp [hr]
    · intro r c
      simp only [Mat.set, h3]
      by_cases hr : r = i
      · by_cases hc : c = n
        · subst hc; simp [hr]
        · have : c < n + 1 ↔ c < n := by omega
          simp [hr, hc, this]
      · simp [hr]

theorem scaleFrame_ok (input_16 : Mat) (max1 min1 width : Nat) (hd : usub max1 min1 ≠ 0)
    (s : Scale) (hs : s.fault = false) (m : Nat) :
    ((List.range m).foldl (scaleRow input_16 max1 min1 width) s).fault = false ∧
    (∀ r c, ((List.range m).foldl (scaleRow input_16 max1 min1 width) s).output_8 r c =
      if r < m ∧ c < width then value4 (count input_16 r c) max1 min1 % 256
      else s.output_8 r c) ∧
    (∀ r c, ((List.range m).foldl (scaleRow input_16 max1 min1 width) s).output_16 r c =
      if r < m ∧ c < width then count input_16 r c % 65536 else s.output_16 r c) := by
  induction m with
  | zero => simp [hs]
  | succ m ih =>
    rw [List.range_succ, List.foldl_append]
    generalize (List.range m).foldl (scaleRow input_16 max1 min1 width) s = t at ih
    obtain ⟨h1, h2, h3⟩ := ih
    obtain ⟨r1, r2, r3⟩ := scaleRow_ok input_16 max1 min1 m hd t h1 width
    simp only [List.foldl_cons, List.foldl_nil]
    refine ⟨r1, ?_, ?_⟩
    · intro r c
      rw [r2, h2]
      by_cases hr : r = m
      · subst hr; simp
      · have : r < m + 1 ↔ r < m := by omega
        simp [hr, this]
    · intro r c
      rw [r3, h3]
      by_cases hr : r = m
      · subst hr; simp
      · have : r < m + 1 ↔ r < m := by omega
        simp [hr, this]

theorem scalePass_ok (input_16 : Mat) (max1 min1 height width : Nat) (output_8 output_16 : Mat)
    (hd : usub max1 min1 ≠ 0) :
    (scalePass input_16 max1 min1 height width output_8 output_16).fault = false ∧
    (∀ r c, (scalePass input_16 max1 min1 height width output_8 output_16).output_8 r c =
      if r < height ∧ c < width then value4 (count input_16 r c) max1 min1 % 256
      else output_8 r c) ∧
    (∀ r c, (scalePass input_16 max1 min1 height width output_8 output_16).output_16 r c =
      if r < height ∧ c < width then count input_16 r c % 65536 else output_16 r c) :=
  scaleFrame_ok input_16 max1 min1 width hd _ rfl height

/-! ### A zero divisor -/

theorem scalePixel_zero (input_16 : Mat) (max1 min1 i j : Nat) (s : Scale)
    (hd : usub max1 min1 = 0) :
    scalePixel input_16 max1 min1 i s j = { s with fault := true } := by
  cases hs : s.fault
  · simp [scalePixel, hd, hs]
  · cases s
    simp_all [scalePixel]

theorem scaleRow_zero (input_16 : Mat) (max1 min1 i : Nat) (hd : usub max1 min1 = 0)
    (s : Scale) (n : Nat) :
    scaleRow input_16 max1 min1 n s i = { s with fault := s.fault || decide (0 < n) } := by
  induction n with
  | zero => cases s; simp [scaleRow]
  | succ n ih =>
    have hrow : scaleRow input_16 max1 min1 (n + 1) s i
        = scalePixel input_16 max1 min1 i (scaleRow input_16 max1 min1 n s i) n := by
      simp [scaleRow, List.range_succ, List.foldl_append]
    rw [hrow, ih, scalePixel_zero _ _ _ _ _ _ hd]
    simp

theorem scaleFrame_zero (input_16 : Mat) (max1 min1 width : Nat) (hd : usub max1 min1 = 0)
    (s : Scale) (m : Nat) :
    (List.range m).foldl (scaleRow input_16 max1 min1 width) s
      = { s with fault := s.fault || decide (0 < m ∧ 0 < width) } := by
  induction m with
  | zero => cases s; simp
  | succ m ih =>
    rw [List.range_succ, List.foldl_append, ih]
    simp only [List.foldl_cons, List.foldl_nil]
    rw [scaleRow_zero _ _ _ _ hd]
    cases s with
    | mk o8 o16 f =>
      cases f <;> by_cases hw : 0 < width <;> by_cases hm : 0 < m <;> simp [hw, hm]

theorem scalePass_zero (input_16 : Mat) (max1 min1 height width : Nat) (output_8 output_16 : Mat)
    (hd : usub max1 min1 = 0) :
    scalePass input_16 max1 min1 height width output_8 output_16
      = { output_8 := output_8, output_16 := output_16,
          fault := decide (0 < height ∧ 0 < width) } := by
  unfold scalePass
  rw [scaleFrame_zero _ _ _ _ hd]
  simp

/-! ### The arithmetic of line 201 -/

theorem usub_eq (a b : Nat) (ha : a < UINT_MOD) (hb : b ≤ a) : usub a b = a - b := by
  unfold usub
  unfold UINT_MOD at *
  have : b % 4294967296 = b := Nat.mod_eq_of_lt (by omega)
  rw [this]
  omega

theorem scaled_le (c min1 max1 : Nat) (hlt : min1 < max1) : scaled c min1 max1 ≤ 255 := by
  unfold scaled clampCount
  apply Nat.div_le_of_le_mul
  have h1 : max min1 (min c max1) - min1 ≤ max1 - min1 := by omega
  calc 255 * (max min1 (min c max1) - min1) ≤ 255 * (max1 - min1) := Nat.mul_le_mul_left _ h1
    _ = (max1 - min1) * 255 := Nat.mul_comm _ _

theorem value4_eq (c max1 min1 : Nat) (hc : c < 65536) (hmax : max1 < UINT_MOD)
    (hlt : min1 < max1) : value4 c max1 min1 = scaled c min1 max1 := by
  unfold value4 scaled clampCount
  have hclamp : (if (if c > max1 then max1 else c) < min1 then min1
      else (if c > max1 then max1 else c)) = max min1 (min c max1) := by
    split_ifs <;> omega
  simp only [hclamp]
  have h5 : max min1 (min c max1) < UINT_MOD := by omega
  rw [usub_eq _ _ hmax (le_of_lt hlt), usub_eq _ _ h5 (le_max_left _ _)]
  have hsmall : 255 * (max min1 (min c max1) - min1) < UINT_MOD := by
    unfold UINT_MOD at *
    omega
  unfold umul
  rw [Nat.mod_eq_of_lt hsmall]

/-! ## `agcBasicLinear` as a whole -/

theorem toCount_lt (A : Arith) (limit : A.F) (n : Nat) (h : toCount A limit = some n) :
    n < UINT_MOD := by
  unfold toCount at h
  cases hc : A.toUInt (A.mul (A.add limit A.lit273_15) A.lit100) with
  | none => simp [hc] at h
  | some v =>
    simp only [hc, Option.map_some', Option.some.injEq] at h
    rw [← h]
    exact Nat.mod_lt _ (by decide)

theorem usub_ne_zero (a b : Nat) (ha : a < UINT_MOD) (hb : b < UINT_MOD) (hne : a ≠ b) :
    usub a b ≠ 0 := by
  unfold usub
  unfold UINT_MOD at *
  have : b % 4294967296 = b := Nat.mod_eq_of_lt hb
  rw [this]
  omega

theorem usub_self (a : Nat) (ha : a < UINT_MOD) : usub a a = 0 := by
  unfold usub
  unfold UINT_MOD at *
  have : a % 4294967296 = a := Nat.mod_eq_of_lt ha
  rw [this]
  omega

theorem agcBasicLinear_temps (A : Arith) (max_temp_limit min_temp_limit : A.F)
    (input_16 output_8 output_16 : Mat) (height width : Nat) :
    (agcBasicLinear A max_temp_limit min_temp_limit input_16 output_8 output_16
        height width).max_temp = toCelsius A (scanPass input_16 height width).max1 ∧
    (agcBasicLinear A max_temp_limit min_temp_limit input_16 output_8 output_16
        height width).min_temp = toCelsius A (scanPass input_16 height width).min1 := by
  unfold agcBasicLinear
  dsimp only
  split
  · exact ⟨rfl, rfl⟩
  · split <;> exact ⟨rfl, rfl⟩

theorem agcBasicLinear_rejected (A : Arith) (max_temp_limit min_temp_limit : A.F)
    (input_16 output_8 output_16 : Mat) (height width : Nat)
    (hlt : A.lt max_temp_limit min_temp_limit = true) :
    (agcBasicLinear A max_temp_limit min_temp_limit input_16 output_8 output_16
        height width).outcome = Outcome.range_error ∧
    (agcBasicLinear A max_temp_limit min_temp_limit input_16 output_8 output_16
        height width).output_8 = output_8 ∧
    (agcBasicLinear A max_temp_limit min_temp_limit input_16 output_8 output_16
        height width).output_16 = output_16 := by
  simp [agcBasicLinear, hlt]

theorem agcBasicLinear_accepted (A : Arith) (max_temp_limit min_temp_limit : A.F)
    (input_16 output_8 output_16 : Mat) (height width max1 min1 : Nat)
    (haccept : A.lt max_temp_limit min_temp_limit = false)
    (hmax : toCount A max_temp_limit = some max1)
    (hmin : toCount A min_temp_limit = some min1) :
    agcBasicLinear A max_temp_limit min_temp_limit input_16 output_8 output_16 height width =
      { outcome :=
          if (scalePass input_16 max1 min1 height width output_8 output_16).fault
          then Outcome.division_by_zero else Outcome.returned,
        output_8 := (scalePass input_16 max1 min1 height width output_8 output_16).output_8,
        output_16 := (scalePass input_16 max1 min1 height width output_8 output_16).output_16,
        max_temp := toCelsius A (scanPass input_16 height width).max1,
        min_temp := toCelsius A (scanPass input_16 height width).min1 } := by
  simp [agcBasicLinear, haccept, hmax, hmin]

theorem agcBasicLinear_scaled (A : Arith) (max_temp_limit min_temp_limit : A.F)
    (input_16 output_8 output_16 : Mat) (height width max1 min1 : Nat)
    (haccept : A.lt max_temp_limit min_temp_limit = false)
    (hmax : toCount A max_temp_limit = some max1)
    (hmin : toCount A min_temp_limit = some min1)
    (hne : max1 ≠ min1) :
    (agcBasicLinear A max_temp_limit min_temp_limit input_16 output_8 output_16
        height width).outcome = Outcome.returned ∧
    (∀ r c, (agcBasicLinear A max_temp_limit min_temp_limit input_16 output_8 output_16
        height width).output_8 r c =
      if r < height ∧ c < width then value4 (count input_16 r c) max1 min1 % 256
      else output_8 r c) ∧
    (∀ r c, (agcBasicLinear A max_temp_limit min_temp_limit input_16 output_8 output_16
        height width).output_16 r c =
      if r < height ∧ c < width then count input_16 r c else output_16 r c) := by
  have hd := usub_ne_zero max1 min1 (toCount_lt A _ _ hmax) (toCount_lt A _ _ hmin) hne
  obtain ⟨h1, h2, h3⟩ := scalePass_ok input_16 max1 min1 height width output_8 output_16 hd
  rw [agcBasicLinear_accepted A _ _ _ _ _ _ _ max1 min1 haccept hmax hmin]
  refine ⟨by simp [h1], h2, ?_⟩
  intro r c
  show (scalePass input_16 max1 min1 height width output_8 output_16).output_16 r c = _
  rw [h3, Nat.mod_eq_of_lt (count_lt input_16 r c)]

theorem agcBasicLinear_output_8 (A : Arith) (max_temp_limit min_temp_limit : A.F)
    (input_16 output_8 output_16 : Mat) (height width max1 min1 i j : Nat)
    (haccept : A.lt max_temp_limit min_temp_limit = false)
    (hmax : toCount A max_temp_limit = some max1)
    (hmin : toCount A min_temp_limit = some min1)
    (hlt : min1 < max1) (hi : i < height) (hj : j < width) :
    (agcBasicLinear A max_temp_limit min_temp_limit input_16 output_8 output_16
        height width).output_8 i j = scaled (count input_16 i j) min1 max1 := by
  obtain ⟨-, h2, -⟩ := agcBasicLinear_scaled A max_temp_limit min_temp_limit input_16
    output_8 output_16 height width max1 min1 haccept hmax hmin (Nat.ne_of_gt hlt)
  rw [h2, if_pos ⟨hi, hj⟩,
    value4_eq _ _ _ (count_lt input_16 i j) (toCount_lt A _ _ hmax) hlt]
  exact Nat.mod_eq_of_lt (Nat.lt_succ_of_le (scaled_le _ _ _ hlt))

theorem scaled_low (c min1 max1 : Nat) (hlt : min1 < max1) (hc : c ≤ min1) :
    scaled c min1 max1 = 0 := by
  unfold scaled clampCount
  have h : max min1 (min c max1) - min1 = 0 := by omega
  rw [h]
  simp

theorem scaled_high (c min1 max1 : Nat) (hlt : min1 < max1) (hc : max1 ≤ c) :
    scaled c min1 max1 = 255 := by
  unfold scaled clampCount
  have h : max min1 (min c max1) - min1 = max1 - min1 := by omega
  rw [h]
  exact Nat.mul_div_cancel 255 (by omega)

/-! ## Exact arithmetic -/

theorem ratToUInt_eq (q : ℚ) (n : Nat) (h1 : (n : ℚ) ≤ q) (h2 : q < n + 1)
    (h3 : n < 4294967296) : ratToUInt q = some n := by
  have hf : Rat.floor q = (n : Int) := by
    have : ⌊q⌋ = (n : Int) := by
      rw [Int.floor_eq_iff]
      constructor
      · exact_mod_cast h1
      · exact_mod_cast h2
    exact this
  have hq : -1 < q := lt_of_lt_of_le (by norm_num) (le_trans (Nat.cast_nonneg n) h1)
  have hq2 : q < 4294967296 := by
    have : (n : ℚ) + 1 ≤ 4294967296 := by exact_mod_cast h3
    linarith
  simp [ratToUInt, hq, hq2, hf]

theorem toCount_exact (limit : ℚ) (n : Nat) (h1 : (n : ℚ) ≤ (limit + 27315 / 100) * 100)
    (h2 : (limit + 27315 / 100) * 100 < n + 1) (h3 : n < 4294967296) :
    toCount exactArith limit = some n := by
  have h := ratToUInt_eq _ n h1 h2 h3
  have hn : n % UINT_MOD = n := Nat.mod_eq_of_lt h3
  unfold toCount
  show Option.map _ (ratToUInt ((limit + 27315 / 100) * 100)) = some n
  rw [h]
  simp [hn]

theorem toCount_limitHigh : toCount exactArith limitHigh = some 30000 :=
  toCount_exact limitHigh 30000 (by norm_num [limitHigh]) (by norm_num [limitHigh])
    (by norm_num)

theorem toCount_limitLow : toCount exactArith limitLow = some 25000 :=
  toCount_exact limitLow 25000 (by norm_num [limitLow]) (by norm_num [limitLow])
    (by norm_num)

theorem toCount_toCelsius_exact (c : Nat) (hc : c < 4294967296) :
    toCount exactArith (toCelsius exactArith c) = some c := by
  apply toCount_exact _ c _ _ hc
  · show (c : ℚ) ≤ (((c : ℚ) / 100 - 27315 / 100) + 27315 / 100) * 100
    have : (((c : ℚ) / 100 - 27315 / 100) + 27315 / 100) * 100 = c := by ring
    rw [this]
  · show (((c : ℚ) / 100 - 27315 / 100) + 27315 / 100) * 100 < (c : ℚ) + 1
    have : (((c : ℚ) / 100 - 27315 / 100) + 27315 / 100) * 100 = c := by ring
    rw [this]
    linarith

theorem lt_limits_exact : exactArith.lt limitHigh limitLow = false := by
  show decide (limitHigh < limitLow) = false
  norm_num [limitHigh, limitLow]

/-! # IEEE double arithmetic -/

/-! ## The rounding of `double` -/

/-- C1: the guard of line 169 does not reject equal limits.  With
`max_temp_limit = min_temp_limit = 26.851` the comparison is false, both limits
convert to the count 30000, no range error is raised, and the first pixel of
the scale pass divides by zero. -/
theorem agcBasicLinear_equal_limits_not_rejected :
    exactArith.lt limitHigh limitHigh = false ∧
    toCount exactArith limitHigh = some 30000 ∧
    (agcBasicLinear exactArith limitHigh limitHigh frame4x4 zeroMat zeroMat 4 4).outcome
      = Outcome.division_by_zero ∧
    (agcBasicLinear exactArith limitHigh limitHigh frame4x4 zeroMat zeroMat 4 4).outcome
      ≠ Outcome.range_error := by
  have hlt : exactArith.lt limitHigh limitHigh = false := by
    show decide (limitHigh < limitHigh) = false
    simp
  have hc := toCount_limitHigh
  have hz := scalePass_zero frame4x4 30000 30000 4 4 zeroMat zeroMat
    (usub_self 30000 (by decide))
  have ho : (agcBasicLinear exactArith limitHigh limitHigh frame4x4 zeroMat zeroMat 4 4).outcome
      = Outcome.division_by_zero := by
    rw [agcBasicLinear_accepted exactArith _ _ _ _ _ _ _ 30000 30000 hlt hc hc, hz]
    simp
  refine ⟨hlt, hc, ho, ?_⟩
  rw [ho]
  decide

/-- C2: whenever the guard of line 169 lets the limits pass and they convert
to the same count, the scale pass of a frame with at least one pixel divides by
zero at line 201: the configuration is not rejected. -/
theorem agcBasicLinear_equal_counts_divide (A : Arith) (max_temp_limit min_temp_limit : A.F)
    (input_16 output_8 output_16 : Mat) (height width max1 : Nat)
    (haccept : A.lt max_temp_limit min_temp_limit = false)
    (hmax : toCount A max_temp_limit = some max1)
    (hmin : toCount A min_temp_limit = some max1)
    (hh : 0 < height) (hw : 0 < width) :
    usub max1 max1 = 0 ∧
    (agcBasicLinear A max_temp_limit min_temp_limit input_16 output_8 output_16
        height width).outcome = Outcome.division_by_zero := by
  have hd := usub_self max1 (toCount_lt A _ _ hmax)
  refine ⟨hd, ?_⟩
  rw [agcBasicLinear_accepted A _ _ _ _ _ _ _ max1 max1 haccept hmax hmin,
    scalePass_zero _ _ _ _ _ _ _ hd]
  simp [hh, hw]

/-- C2, at limits that differ: `max_temp_limit = 26.851` and
`min_temp_limit = 26.85` pass the guard, both convert to the count 30000, and
the scale pass divides by zero. -/
theorem agcBasicLinear_equal_counts_divide_witness :
    exactArith.lt limitHigh temp30000 = false ∧
    toCount exactArith limitHigh = some 30000 ∧
    toCount exactArith temp30000 = some 30000 ∧
    usub 30000 30000 = 0 ∧
    (agcBasicLinear exactArith limitHigh temp30000 frame1x1 zeroMat zeroMat 1 1).outcome
      = Outcome.division_by_zero := by
  have hlt : exactArith.lt limitHigh temp30000 = false := by
    show decide (limitHigh < temp30000) = false
    norm_num [limitHigh, temp30000]
  have hc : toCount exactArith temp30000 = some 30000 :=
    toCount_exact temp30000 30000 (by norm_num [temp30000]) (by norm_num [temp30000])
      (by norm_num)
  exact ⟨hlt, toCount_limitHigh, hc,
    agcBasicLinear_equal_counts_divide exactArith limitHigh temp30000 frame1x1 zeroMat
      zeroMat 1 1 30000 hlt toCount_limitHigh hc (by decide) (by decide)⟩

/-- C3: when the limits pass the guard and convert to `min1 < max1`, the call
returns and the 8-bit output at every pixel `(i, j)` of the frame is
`floor (255 * (clamped - min1) / (max1 - min1))`, where `clamped` is the count
of the pixel clamped to `[min1, max1]`. -/
theorem agcBasicLinear_scale_formula (A : Arith) (max_temp_limit min_temp_limit : A.F)
    (input_16 output_8 output_16 : Mat) (height width max1 min1 i j : Nat)
    (haccept : A.lt max_temp_limit min_temp_limit = false)
    (hmax : toCount A max_temp_limit = some max1)
    (hmin : toCount A min_temp_limit = some min1)
    (hlt : min1 < max1) (hi : i < height) (hj : j < width) :
    (agcBasicLinear A max_temp_limit min_temp_limit input_16 output_8 output_16
        height width).outcome = Outcome.returned ∧
    (agcBasicLinear A max_temp_limit min_temp_limit input_16 output_8 output_16
        height width).output_8 i j =
      255 * (clampCount (count input_16 i j) min1 max1 - min1) / (max1 - min1) :=
  ⟨(agcBasicLinear_scaled A max_temp_limit min_temp_limit input_16 output_8 output_16
      height width max1 min1 haccept hmax hmin (Nat.ne_of_gt hlt)).1,
   agcBasicLinear_output_8 A max_temp_limit min_temp_limit input_16 output_8 output_16
      height width max1 min1 i j haccept hmax hmin hlt hi hj⟩

/-- C3 on the 4x4 frame with `min1 = 25000` and `max1 = 30000`: the pixel of
count 25000 gives 0, the pixel of count 30000 gives 255 and the pixel of count
27500 gives 127. -/
theorem agcBasicLinear_scale_formula_witness :
    (exactArith.lt limitHigh limitLow = false ∧
      toCount exactArith limitHigh = some 30000 ∧
      toCount exactArith limitLow = some 25000) ∧
    (count frame4x4 0 0 = 25000 ∧ count frame4x4 0 1 = 30000 ∧ count frame4x4 0 2 = 27500) ∧
    (agcBasicLinear exactArith limitHigh limitLow frame4x4 zeroMat zeroMat 4 4).outcome
      = Outcome.returned ∧
    (agcBasicLinear exactArith limitHigh limitLow frame4x4 zeroMat zeroMat 4 4).output_8 0 0
      = 0 ∧
    (agcBasicLinear exactArith limitHigh limitLow frame4x4 zeroMat zeroMat 4 4).output_8 0 1
      = 255 ∧
    (agcBasicLinear exactArith limitHigh limitLow frame4x4 zeroMat zeroMat 4 4).output_8 0 2
      = 127 := by
  have h := fun i j (hi : i < 4) (hj : j < 4) =>
    agcBasicLinear_scale_formula exactArith limitHigh limitLow frame4x4 zeroMat zeroMat 4 4
      30000 25000 i j lt_limits_exact toCount_limitHigh toCount_limitLow (by decide) hi hj
  refine ⟨⟨lt_limits_exact, toCount_limitHigh, toCount_limitLow⟩,
    ⟨by decide, by decide, by decide⟩, (h 0 0 (by decide) (by decide)).1, ?_, ?_, ?_⟩
  · exact (h 0 0 (by decide) (by decide)).2.trans (by decide)
  · exact (h 0 1 (by decide) (by decide)).2.trans (by decide)
  · exact (h 0 2 (by decide) (by decide)).2.trans (by decide)

/-- C4: for a frame with at least one pixel, `max_temp` and `min_temp` are
`M / 100 - 273.15` and `m / 100 - 273.15`, where `M` is the greatest and `m` the
least count of the pixels of the frame, whatever the limits and the previous
outputs are and however the call ends. -/
theorem agcBasicLinear_scan_temperatures (A : Arith) (input_16 : Mat) (height width : Nat)
    (hh : 0 < height) (hw : 0 < width) :
    ∃ M m, IsGreatest (pixelCounts input_16 height width) M ∧
      IsLeast (pixelCounts input_16 height width) m ∧
      ∀ (max_temp_limit min_temp_limit : A.F) (output_8 output_16 : Mat),
        (agcBasicLinear A max_temp_limit min_temp_limit input_16 output_8 output_16
            height width).max_temp = A.sub (A.div (A.ofUInt M) A.lit100) A.lit273_15 ∧
        (agcBasicLinear A max_temp_limit min_temp_limit input_16 output_8 output_16
            height width).min_temp = A.sub (A.div (A.ofUInt m) A.lit100) A.lit273_15 :=
  ⟨(scanPass input_16 height width).max1, (scanPass input_16 height width).min1,
    scanPass_isGreatest input_16 height width hh hw,
    scanPass_isLeast input_16 height width hh hw,
    fun max_temp_limit min_temp_limit output_8 output_16 =>
      agcBasicLinear_temps A max_temp_limit min_temp_limit input_16 output_8 output_16
        height width⟩

/-- C4 on the 4x4 frame, whose greatest count is 30000 and whose least count
is 25000. -/
theorem agcBasicLinear_scan_temperatures_witness :
    (0 < 4 ∧ 0 < 4) ∧
    IsGreatest (pixelCounts frame4x4 4 4) 30000 ∧
    IsLeast (pixelCounts frame4x4 4 4) 25000 ∧
    ∀ (max_temp_limit min_temp_limit : ℚ) (output_8 output_16 : Mat),
      (agcBasicLinear exactArith max_temp_limit min_temp_limit frame4x4 output_8 output_16
          4 4).max_temp = (30000 : ℚ) / 100 - 27315 / 100 ∧
      (agcBasicLinear exactArith max_temp_limit min_temp_limit frame4x4 output_8 output_16
          4 4).min_temp = (25000 : ℚ) / 100 - 27315 / 100 := by
  have hall : ∀ i, i < 4 → ∀ j, j < 4 →
      25000 ≤ count frame4x4 i j ∧ count frame4x4 i j ≤ 30000 := by decide
  have hG : IsGreatest (pixelCounts frame4x4 4 4) 30000 :=
    ⟨⟨0, 1, by decide, by decide, by decide⟩,
      fun c ⟨i, j, hi, hj, hc⟩ => hc ▸ (hall i hi j hj).2⟩
  have hL : IsLeast (pixelCounts frame4x4 4 4) 25000 :=
    ⟨⟨0, 0, by decide, by decide, by decide⟩,
      fun c ⟨i, j, hi, hj, hc⟩ => hc ▸ (hall i hi j hj).1⟩
  obtain ⟨M, m, hM, hm, h⟩ :=
    agcBasicLinear_scan_temperatures exactArith frame4x4 4 4 (by decide) (by decide)
  have hM30 : M = 30000 := hM.unique hG
  have hm25 : m = 25000 := hm.unique hL
  subst hM30 hm25
  refine ⟨⟨by decide, by decide⟩, hG, hL, fun a b o8 o16 => ?_⟩
  have h2 := h a b o8 o16
  refine ⟨h2.1.trans ?_, h2.2.trans ?_⟩
  · show ((30000 : Nat) : ℚ) / 100 - 27315 / 100 = _
    norm_num
  · show ((25000 : Nat) : ℚ) / 100 - 27315 / 100 = _
    norm_num

/-- C5: when the limits pass the guard and convert to `min1 < max1`, a pixel
of the frame whose count is below `min1` or equal to it has 8-bit output 0, and
a pixel whose count is above `max1` or equal to it has 8-bit output 255. -/
theorem agcBasicLinear_clamping (A : Arith) (max_temp_limit min_temp_limit : A.F)
    (input_16 output_8 output_16 : Mat) (height width max1 min1 i j : Nat)
    (haccept : A.lt max_temp_limit min_temp_limit = false)
    (hmax : toCount A max_temp_limit = some max1)
    (hmin : toCount A min_temp_limit = some min1)
    (hlt : min1 < max1) (hi : i < height) (hj : j < width) :
    (count input_16 i j < min1 →
      (agcBasicLinear A max_temp_limit min_temp_limit input_16 output_8 output_16
        height width).output_8 i j = 0) ∧
    (max1 < count input_16 i j →
      (agcBasicLinear A max_temp_limit min_temp_limit input_16 output_8 output_16
        height width).output_8 i j = 255) ∧
    (count input_16 i j = min1 →
      (agcBasicLinear A max_temp_limit min_temp_limit input_16 output_8 output_16
        height width).output_8 i j = 0) ∧
    (count input_16 i j = max1 →
      (agcBasicLinear A max_temp_limit min_temp_limit input_16 output_8 output_16
        height width).output_8 i j = 255) := by
  have h := agcBasicLinear_output_8 A max_temp_limit min_temp_limit input_16 output_8
    output_16 height width max1 min1 i j haccept hmax hmin hlt hi hj
  rw [h]
  exact ⟨fun hc => scaled_low _ _ _ hlt (le_of_lt hc),
    fun hc => scaled_high _ _ _ hlt (le_of_lt hc),
    fun hc => scaled_low _ _ _ hlt (le_of_eq hc),
    fun hc => scaled_high _ _ _ hlt (le_of_eq hc.symm)⟩

/-- C5 on the 4x4 frame with `min1 = 26500` and `max1 = 28500`: the pixel
`(0, 0)` of count 25000 is below, `(0, 1)` of count 30000 is above, `(2, 2)` of
count 26500 and `(3, 3)` of count 28500 are at the limits. -/
theorem agcBasicLinear_clamping_witness :
    (exactArith.lt (1185 / 100 : ℚ) (-815 / 100 : ℚ) = false ∧
      toCount exactArith (1185 / 100 : ℚ) = some 28500 ∧
      toCount exactArith (-815 / 100 : ℚ) = some 26500) ∧
    (count frame4x4 0 0 < 26500 ∧ 28500 < count frame4x4 0 1 ∧
      count frame4x4 2 2 = 26500 ∧ count frame4x4 3 3 = 28500) ∧
    (agcBasicLinear exactArith (1185 / 100 : ℚ) (-815 / 100 : ℚ) frame4x4 zeroMat zeroMat
        4 4).output_8 0 0 = 0 ∧
    (agcBasicLinear exactArith (1185 / 100 : ℚ) (-815 / 100 : ℚ) frame4x4 zeroMat zeroMat
        4 4).output_8 0 1 = 255 ∧
    (agcBasicLinear exactArith (1185 / 100 : ℚ) (-815 / 100 : ℚ) frame4x4 zeroMat zeroMat
        4 4).output_8 2 2 = 0 ∧
    (agcBasicLinear exactArith (1185 / 100 : ℚ) (-815 / 100 : ℚ) frame4x4 zeroMat zeroMat
        4 4).output_8 3 3 = 255 := by
  have hlt : exactArith.lt (1185 / 100 : ℚ) (-815 / 100 : ℚ) = false := by
    show decide ((1185 / 100 : ℚ) < -815 / 100) = false
    norm_num
  have hmax : toCount exactArith (1185 / 100 : ℚ) = some 28500 :=
    toCount_exact _ 28500 (by norm_num) (by norm_num) (by norm_num)
  have hmin : toCount exactArith (-815 / 100 : ℚ) = some 26500 :=
    toCount_exact _ 26500 (by norm_num) (by norm_num) (by norm_num)
  have h := fun i j (hi : i < 4) (hj : j < 4) =>
    agcBasicLinear_clamping exactArith (1185 / 100 : ℚ) (-815 / 100 : ℚ) frame4x4 zeroMat
      zeroMat 4 4 28500 26500 i j hlt hmax hmin (by decide) hi hj
  exact ⟨⟨hlt, hmax, hmin⟩, ⟨by decide, by decide, by decide, by decide⟩,
    (h 0 0 (by decide) (by decide)).1 (by decide),
    (h 0 1 (by decide) (by decide)).2.1 (by decide),
    (h 2 2 (by decide) (by decide)).2.2.1 (by decide),
    (h 3 3 (by decide) (by decide)).2.2.2 (by decide)⟩

/-- Count reconstruction, and the pass-through when the scale pass runs: for
every pair of bytes `(high << 8) + low` is `(high << 8) | low` and is below
65536, the bytes 0x75 and 0x30 give 30000, and whenever the limits pass the
guard and convert to two different counts the 16-bit output at a pixel `(i, j)`
of the frame is the count built from the bytes at columns `2j+1` (high) and
`2j` (low) of row `i`, unclamped. -/
theorem agcBasicLinear_count_pass_through :
    (∀ high low : Nat, high < 256 → low < 256 →
      reconstruct high low = (high <<< 8) ||| low ∧ reconstruct high low < 65536) ∧
    reconstruct 0x75 0x30 = 30000 ∧
    (∀ (A : Arith) (max_temp_limit min_temp_limit : A.F)
      (input_16 output_8 output_16 : Mat) (height width max1 min1 i j : Nat),
      A.lt max_temp_limit min_temp_limit = false →
      toCount A max_temp_limit = some max1 →
      toCount A min_temp_limit = some min1 →
      max1 ≠ min1 → i < height → j < width →
      (agcBasicLinear A max_temp_limit min_temp_limit input_16 output_8 output_16
        height width).output_16 i j
        = reconstruct (input_16 i (2 * j + 1) % 256) (input_16 i (2 * j) % 256)) := by
  refine ⟨fun high low hh hl => ⟨reconstruct_eq_or high low hh hl, ?_⟩, by decide, ?_⟩
  · rw [reconstruct_eq high low hh hl]
    omega
  · intro A max_temp_limit min_temp_limit input_16 output_8 output_16 height width max1 min1
      i j haccept hmax hmin hne hi hj
    obtain ⟨-, -, h3⟩ := agcBasicLinear_scaled A max_temp_limit min_temp_limit input_16
      output_8 output_16 height width max1 min1 haccept hmax hmin hne
    rw [h3, if_pos ⟨hi, hj⟩]
    unfold count
    simp only [and_255_eq_mod, Nat.mul_comm j 2]

/-- The pass-through on the 4x4 frame: with limits that convert to 28500 and
26500 the 16-bit output keeps the counts 25000, 30000 and 28000. -/
theorem agcBasicLinear_count_pass_through_witness :
    (exactArith.lt (1185 / 100 : ℚ) (-815 / 100 : ℚ) = false ∧
      toCount exactArith (1185 / 100 : ℚ) = some 28500 ∧
      toCount exactArith (-815 / 100 : ℚ) = some 26500) ∧
    (agcBasicLinear exactArith (1185 / 100 : ℚ) (-815 / 100 : ℚ) frame4x4 zeroMat zeroMat
        4 4).output_16 0 0 = 25000 ∧
    (agcBasicLinear exactArith (1185 / 100 : ℚ) (-815 / 100 : ℚ) frame4x4 zeroMat zeroMat
        4 4).output_16 0 1 = 30000 ∧
    (agcBasicLinear exactArith (1185 / 100 : ℚ) (-815 / 100 : ℚ) frame4x4 zeroMat zeroMat
        4 4).output_16 1 2 = 28000 := by
  have hlt : exactArith.lt (1185 / 100 : ℚ) (-815 / 100 : ℚ) = false := by
    show decide ((1185 / 100 : ℚ) < -815 / 100) = false
    norm_num
  have hmax : toCount exactArith (1185 / 100 : ℚ) = some 28500 :=
    toCount_exact _ 28500 (by norm_num) (by norm_num) (by norm_num)
  have hmin : toCount exactArith (-815 / 100 : ℚ) = some 26500 :=
    toCount_exact _ 26500 (by norm_num) (by norm_num) (by norm_num)
  have h := fun i j (hi : i < 4) (hj : j < 4) =>
    agcBasicLinear_count_pass_through.2.2 exactArith (1185 / 100 : ℚ) (-815 / 100 : ℚ)
      frame4x4 zeroMat zeroMat 4 4 28500 26500 i j hlt hmax hmin (by decide) hi hj
  exact ⟨⟨hlt, hmax, hmin⟩,
    (h 0 0 (by decide) (by decide)).trans (by decide),
    (h 0 1 (by decide) (by decide)).trans (by decide),
    (h 1 2 (by decide) (by decide)).trans (by decide)⟩

theorem toCelsius_exact (c : Nat) :
    toCelsius exactArith c = (c : ℚ) / 100 - 27315 / 100 := rfl

theorem agcBasicLinear_zero_divisor (A : Arith) (max_temp_limit min_temp_limit : A.F)
    (input_16 output_8 output_16 : Mat) (height width max1 : Nat)
    (haccept : A.lt max_temp_limit min_temp_limit = false)
    (hmax : toCount A max_temp_limit = some max1)
    (hmin : toCount A min_temp_limit = some max1)
    (hh : 0 < height) (hw : 0 < width) :
    (agcBasicLinear A max_temp_limit min_temp_limit input_16 output_8 output_16
        height width).outcome = Outcome.division_by_zero := by
  have hd := usub_self max1 (toCount_lt A _ _ hmax)
  rw [agcBasicLinear_accepted A _ _ _ _ _ _ _ max1 max1 haccept hmax hmin,
    scalePass_zero _ _ _ _ _ _ _ hd]
  simp [hh, hw]

set_option maxRecDepth 8000 in
theorem toCount_double_samples :
    toCount doubleArith (toCelsius doubleArith 30000) = some 30000 ∧
    toCount doubleArith (toCelsius doubleArith 27316) = some 27316 ∧
    toCount doubleArith (toCelsius doubleArith 27315) = some 27314 ∧
    toCount doubleArith (toCelsius doubleArith 257) = some 256 ∧
    toCount doubleArith (toCelsius doubleArith 2) = some 1 ∧
    toCount doubleArith limitHighD = some 30000 ∧
    toCount doubleArith limitMidD = some 30000 ∧
    doubleArith.lt limitHighD limitMidD = false := by
  refine ⟨?_, ?_, ?_, ?_, ?_, ?_, ?_, ?_⟩ <;> decide

/-- C6: with the limits 26.851 and 26.85 the guard of line 169 passes, both
limits convert to the count 30000, and the first pixel of the scale pass
divides by zero at line 201, before line 204 writes: the 16-bit output of the
pixel keeps its previous value 0 instead of the count 30000 of the input.  This
is so in `double` arithmetic and in exact arithmetic alike. -/
theorem agcBasicLinear_pass_through_fault :
    count frame1x1 0 0 = 30000 ∧
    (doubleArith.lt limitHighD limitMidD = false ∧
      toCount doubleArith limitHighD = some 30000 ∧
      toCount doubleArith limitMidD = some 30000 ∧
      (agcBasicLinear doubleArith limitHighD limitMidD frame1x1 zeroMat zeroMat 1 1).outcome
        = Outcome.division_by_zero ∧
      (agcBasicLinear doubleArith limitHighD limitMidD frame1x1 zeroMat zeroMat 1 1).output_16
        0 0 = 0 ∧
      (agcBasicLinear doubleArith limitHighD limitMidD frame1x1 zeroMat zeroMat 1 1).output_16
        0 0 ≠ count frame1x1 0 0) ∧
    (exactArith.lt limitHigh temp30000 = false ∧
      toCount exactArith limitHigh = some 30000 ∧
      toCount exactArith temp30000 = some 30000 ∧
      (agcBasicLinear exactArith limitHigh temp30000 frame1x1 zeroMat zeroMat 1 1).outcome
        = Outcome.division_by_zero ∧
      (agcBasicLinear exactArith limitHigh temp30000 frame1x1 zeroMat zeroMat 1 1).output_16
        0 0 = 0 ∧
      (agcBasicLinear exactArith limitHigh temp30000 frame1x1 zeroMat zeroMat 1 1).output_16
        0 0 ≠ count frame1x1 0 0) := by
  obtain ⟨-, -, -, -, -, c6, c7, c8⟩ := toCount_double_samples
  have hz := scalePass_zero frame1x1 30000 30000 1 1 zeroMat zeroMat
    (usub_self 30000 (by decide))
  have hc : count frame1x1 0 0 = 30000 := by decide
  have hlt : exactArith.lt limitHigh temp30000 = false := by
    show decide (limitHigh < temp30000) = false
    norm_num [limitHigh, temp30000]
  have he : toCount exactArith temp30000 = some 30000 :=
    toCount_exact temp30000 30000 (by norm_num [temp30000]) (by norm_num [temp30000])
      (by norm_num)
  have hne : zeroMat 0 0 ≠ 30000 := by decide
  rw [agcBasicLinear_accepted doubleArith _ _ _ _ _ _ _ 30000 30000 c8 c6 c7,
    agcBasicLinear_accepted exactArith _ _ _ _ _ _ _ 30000 30000 hlt toCount_limitHigh he,
    hz, hc]
  exact ⟨rfl, ⟨c8, c6, c7, by simp, rfl, hne⟩, ⟨hlt, toCount_limitHigh, he, by simp, rfl, hne⟩⟩

/-! ## The capture cycle -/

/-- C8, amended: in RAW16 mode with zoom disabled, when both buffer requests
succeed, the limits pass the guard and convert to two different counts, and the
pointer lies inside the frame, the capture cycle ends with
`ptr_temp = frame[point_y][point_x] / 100.0 - 273.15`, where `frame[r][c]` is
the count of the input frame at row `r` and column `c`. -/
theorem captureAndPublish_ptr_temp (A : Arith) (thermal16 : Mat) (s : Capture A)
    (max1 min1 : Nat)
    (hmode : s.video_mode = VideoMode.RAW16) (hzoom : s.zoom_enable = false)
    (haccept : A.lt s.max_temp_limit s.min_temp_limit = false)
    (hmax : toCount A s.max_temp_limit = some max1)
    (hmin : toCount A s.min_temp_limit = some min1)
    (hne : max1 ≠ min1)
    (hx : s.point_x < s.width) (hy : s.point_y < s.height) :
    ∃ s', captureAndPublish A true true thermal16 s = some s' ∧
      s'.ptr_temp =
        A.sub (A.div (A.ofUInt (count thermal16 s.point_y s.point_x)) A.lit100)
          A.lit273_15 := by
  obtain ⟨h1, -, h3⟩ := agcBasicLinear_scaled A s.max_temp_limit s.min_temp_limit thermal16
    s.thermal8_linear s.thermal16_linear s.height s.width max1 min1 haccept hmax hmin hne
  have h16 := h3 s.point_y s.point_x
  rw [if_pos ⟨hy, hx⟩] at h16
  unfold captureAndPublish
  simp only [hmode, h1, hzoom, h16]
  exact ⟨_, rfl, rfl⟩

/-- C8, amended, on the 4x4 frame with `point_x = 2` and `point_y = 1`: the pointer
temperature is that of `frame[1][2] = 28000`. -/
theorem captureAndPublish_ptr_temp_witness :
    (sampleCapture.video_mode = VideoMode.RAW16 ∧ sampleCapture.zoom_enable = false ∧
      sampleCapture.point_x = 2 ∧ sampleCapture.point_y = 1 ∧
      sampleCapture.width = 4 ∧ sampleCapture.height = 4 ∧ count frame4x4 1 2 = 28000) ∧
    ∃ s', captureAndPublish exactArith true true frame4x4 sampleCapture = some s' ∧
      s'.ptr_temp = (28000 : ℚ) / 100 - 27315 / 100 := by
  obtain ⟨s', h1, h2⟩ := captureAndPublish_ptr_temp exactArith frame4x4 sampleCapture
    30000 25000 rfl rfl lt_limits_exact toCount_limitHigh toCount_limitLow (by decide)
    (by decide) (by decide)
  refine ⟨⟨rfl, rfl, rfl, rfl, rfl, rfl, by decide⟩, s', h1, h2.trans ?_⟩
  have hc : count frame4x4 sampleCapture.point_y sampleCapture.point_x = 28000 := by decide
  rw [hc]
  show ((28000 : Nat) : ℚ) / 100 - 27315 / 100 = _
  norm_num

/-- C8, three cycles in RAW16 mode on the 4x4 frame with the pointer at
`frame[1][2] = 28000`, a temperature of 6.85.  With zoom enabled the cycle
returns and leaves the pointer temperature at its previous value -1000; when
the enqueue request fails the cycle is abandoned and the pointer temperature
stays 0; with both limits at 26.851 the configuration passes the guard and the
cycle divides by zero. -/
theorem captureAndPublish_ptr_temp_not_set :
    (zoomCapture.video_mode = VideoMode.RAW16 ∧ zoomCapture.point_x = 2 ∧
      zoomCapture.point_y = 1 ∧ zoomCapture.width = 4 ∧ zoomCapture.height = 4 ∧
      count frame4x4 1 2 = 28000) ∧
    (toCelsius exactArith 28000 = (685 / 100 : ℚ)) ∧
    (captureAndPublish exactArith true true frame4x4 zoomCapture).map (fun s => s.ptr_temp)
      = some (-1000 : ℚ) ∧
    (captureAndPublish exactArith false true frame4x4 sampleCapture).map (fun s => s.ptr_temp)
      = some (0 : ℚ) ∧
    exactArith.lt equalCapture.max_temp_limit equalCapture.min_temp_limit = false ∧
    (captureAndPublish exactArith true true frame4x4 equalCapture).isNone = true := by
  have ht : toCelsius exactArith 28000 = (685 / 100 : ℚ) := by
    show ((28000 : Nat) : ℚ) / 100 - 27315 / 100 = (685 / 100 : ℚ)
    norm_num
  have hzoom : (captureAndPublish exactArith true true frame4x4 zoomCapture).map
      (fun s => s.ptr_temp) = some (-1000 : ℚ) := by
    have h1 := (agcBasicLinear_scaled exactArith limitHigh limitLow frame4x4 zeroMat zeroMat
      4 4 30000 25000 lt_limits_exact toCount_limitHigh toCount_limitLow (by decide)).1
    have h2 : (agcBasicLinear exactArith zoomCapture.max_temp_limit zoomCapture.min_temp_limit
        frame4x4 zoomCapture.thermal8_linear zoomCapture.thermal16_linear zoomCapture.height
        zoomCapture.width).outcome = Outcome.returned := h1
    unfold captureAndPublish
    simp only [h2]
    simp [zoomCapture, sampleCapture]
  have hq : (captureAndPublish exactArith false true frame4x4 sampleCapture).map
      (fun s => s.ptr_temp) = some (0 : ℚ) := by
    simp [captureAndPublish, sampleCapture]
  have hlt : exactArith.lt limitHigh limitHigh = false := by
    show decide (limitHigh < limitHigh) = false
    simp
  have hcrash : (captureAndPublish exactArith true true frame4x4 equalCapture).isNone
      = true := by
    have h1 := (agcBasicLinear_zero_divisor exactArith limitHigh limitHigh frame4x4
      zeroMat zeroMat 4 4 30000 hlt toCount_limitHigh toCount_limitHigh (by decide)
      (by decide))
    have h2 : (agcBasicLinear exactArith equalCapture.max_temp_limit
        equalCapture.min_temp_limit frame4x4 equalCapture.thermal8_linear
        equalCapture.thermal16_linear equalCapture.height equalCapture.width).outcome
        = Outcome.division_by_zero := h1
    unfold captureAndPublish
    simp only [h2]
    simp [equalCapture, sampleCapture]
  exact ⟨⟨rfl, rfl, rfl, rfl, rfl, by decide⟩, ht, hzoom, hq, hlt, hcrash⟩

/-! ## Bring-up and shutdown -/

/-- C9: on a device whose `VIDIOC_STREAMOFF` fails, `closeCamera` returns false
at line 377 and never reaches `close(fd)`: the descriptor that `openCamera`
opened stays open, and no `close` is among the requests. -/
theorem closeCamera_streamoff_failure_skips_close :
    (openCamera streamoffFails VideoMode.RAW16 SensorType.Boson640 Handle.init).1 = true ∧
    (openCamera streamoffFails VideoMode.RAW16 SensorType.Boson640 Handle.init).2.fd_open
      = true ∧
    (closeCamera streamoffFails
      (openCamera streamoffFails VideoMode.RAW16 SensorType.Boson640 Handle.init).2).1
      = false ∧
    (closeCamera streamoffFails
      (openCamera streamoffFails VideoMode.RAW16 SensorType.Boson640 Handle.init).2).2.fd_open
      = true ∧
    Call.close ∉ (closeCamera streamoffFails
      (openCamera streamoffFails VideoMode.RAW16 SensorType.Boson640 Handle.init).2).2.calls ∧
    (closeCamera goodDevice
      (openCamera goodDevice VideoMode.RAW16 SensorType.Boson640 Handle.init).2).2.fd_open
      = false := by
  decide

theorem openCamera_ok_iff (d : Device) (video_mode : VideoMode) (sensor_type : SensorType)
    (h : Handle) :
    (openCamera d video_mode sensor_type h).1 = true ↔ ∀ b ∈ stepResults d, b = true := by
  rcases d with ⟨a1, a2, a3, a4, a5, a6, a7, a8, a9⟩
  cases a1 <;> cases a2 <;> cases a3 <;> cases a4 <;> cases a5 <;> cases a6 <;> cases a7 <;>
    cases a8 <;> simp [openCamera, stepResults]

theorem openCamera_calls (d : Device) (video_mode : VideoMode) (sensor_type : SensorType)
    (h : Handle) :
    (openCamera d video_mode sensor_type h).2.calls
      = h.calls ++ (bringUp video_mode sensor_type).take (stepsTaken (stepResults d)) := by
  rcases d with ⟨a1, a2, a3, a4, a5, a6, a7, a8, a9⟩
  cases video_mode <;> cases sensor_type <;>
  cases a1 <;> cases a2 <;> cases a3 <;> cases a4 <;> cases a5 <;> cases a6 <;> cases a7 <;>
    cases a8 <;> simp [openCamera, stepResults, stepsTaken, bringUp]

theorem openCamera_streaming (d : Device) (video_mode : VideoMode) (sensor_type : SensorType) :
    (openCamera d video_mode sensor_type Handle.init).2.streaming
      = (openCamera d video_mode sensor_type Handle.init).1 := by
  rcases d with ⟨a1, a2, a3, a4, a5, a6, a7, a8, a9⟩
  cases a1 <;> cases a2 <;> cases a3 <;> cases a4 <;> cases a5 <;> cases a6 <;> cases a7 <;>
    cases a8 <;> simp [openCamera, Handle.init]

theorem onInit_timer (d : Device) (video_mode_str sensor_type_str : String)
    (ht : (onInit d video_mode_str sensor_type_str).capture_timer = true) :
    ∃ video_mode sensor_type,
      (openCamera d video_mode sensor_type Handle.init).1 = true ∧
      (onInit d video_mode_str sensor_type_str).handle
        = (openCamera d video_mode sensor_type Handle.init).2 := by
  unfold onInit at ht ⊢
  generalize videoModeOfString video_mode_str = vm at ht ⊢
  generalize sensorTypeOfString sensor_type_str = st at ht ⊢
  cases vm with
  | none => cases st <;> simp at ht
  | some vm =>
    cases st with
    | none => simp at ht
    | some st =>
      refine ⟨vm, st, ?_⟩
      cases ho : (openCamera d vm st Handle.init).1 <;> simp_all

theorem onInit_shutdown (d : Device) (video_mode_str sensor_type_str : String) :
    (onInit d video_mode_str sensor_type_str).shutdown
      = !(onInit d video_mode_str sensor_type_str).capture_timer := by
  unfold onInit
  generalize videoModeOfString video_mode_str = vm
  generalize sensorTypeOfString sensor_type_str = st
  cases vm with
  | none => cases st <;> simp
  | some vm =>
    cases st with
    | none => simp
    | some st => cases ho : (openCamera d vm st Handle.init).1 <;> simp_all

/-- C10: `openCamera` returns true exactly when every step of the bring-up
succeeds; the requests it issues are those of the bring-up, in order, up to and
including the first step that fails; the device streams afterwards exactly
when it returns true; and when `VIDIOC_STREAMON` fails `openCamera` returns
false and `onInit` shuts down without creating the capture timer, the device
not streaming. -/
theorem openCamera_aborts_on_first_failure (d : Device) (video_mode : VideoMode)
    (sensor_type : SensorType) :
    ((openCamera d video_mode sensor_type Handle.init).1 = true ↔
      ∀ b ∈ stepResults d, b = true) ∧
    (openCamera d video_mode sensor_type Handle.init).2.calls
      = (bringUp video_mode sensor_type).take (stepsTaken (stepResults d)) ∧
    ((openCamera d video_mode sensor_type Handle.init).2.streaming = true ↔
      (openCamera d video_mode sensor_type Handle.init).1 = true) ∧
    (∀ video_mode_str sensor_type_str,
      (onInit d video_mode_str sensor_type_str).capture_timer = true →
        ∀ b ∈ stepResults d, b = true) ∧
    (d.streamon_ok = false →
      (openCamera d video_mode sensor_type Handle.init).1 = false ∧
      ∀ video_mode_str sensor_type_str,
        (onInit d video_mode_str sensor_type_str).capture_timer = false ∧
        (onInit d video_mode_str sensor_type_str).shutdown = true ∧
        (onInit d video_mode_str sensor_type_str).handle.streaming = false) := by
  have htimer : ∀ video_mode_str sensor_type_str,
      (onInit d video_mode_str sensor_type_str).capture_timer = true →
        ∀ b ∈ stepResults d, b = true := by
    intro vs ss ht
    obtain ⟨vm, st, ho, -⟩ := onInit_timer d vs ss ht
    exact (openCamera_ok_iff d vm st Handle.init).mp ho
  have hstream : ∀ vs ss, (onInit d vs ss).handle.streaming = true →
      ∀ b ∈ stepResults d, b = true := by
    intro vs ss hs
    unfold onInit at hs
    generalize videoModeOfString vs = vm at hs
    generalize sensorTypeOfString ss = st at hs
    cases vm with
    | none => cases st <;> simp [Handle.init] at hs
    | some vm =>
      cases st with
      | none => simp [Handle.init] at hs
      | some st =>
        have hs2 : (openCamera d vm st Handle.init).2.streaming = true := by
          cases ho : (openCamera d vm st Handle.init).1 <;> simp_all
        rw [openCamera_streaming] at hs2
        exact (openCamera_ok_iff d vm st Handle.init).mp hs2
  refine ⟨openCamera_ok_iff d video_mode sensor_type Handle.init, ?_, ?_, htimer, ?_⟩
  · rw [openCamera_calls]
    rfl
  · rw [openCamera_streaming]
  · intro hoff
    have hnot : ¬ ∀ b ∈ stepResults d, b = true := by
      intro hall
      have := hall d.streamon_ok (by simp [stepResults])
      rw [hoff] at this
      exact Bool.false_ne_true this
    refine ⟨?_, fun vs ss => ?_⟩
    · cases ho : (openCamera d video_mode sensor_type Handle.init).1
      · rfl
      · exact absurd ((openCamera_ok_iff d video_mode sensor_type Handle.init).mp ho) hnot
    · have ht : (onInit d vs ss).capture_timer = false := by
        cases hc : (onInit d vs ss).capture_timer
        · rfl
        · exact absurd (htimer vs ss hc) hnot
      refine ⟨ht, ?_, ?_⟩
      · rw [onInit_shutdown, ht]
        rfl
      · cases hc : (onInit d vs ss).handle.streaming
        · rfl
        · exact absurd (hstream vs ss hc) hnot

/-- C10 on a device where only `VIDIOC_STREAMON` fails: all seven requests are
issued, `openCamera` returns false, and `onInit` creates no capture timer. -/
theorem openCamera_aborts_on_first_failure_witness :
    streamonFails.streamon_ok = false ∧
    (openCamera streamonFails VideoMode.RAW16 SensorType.Boson640 Handle.init).1 = false ∧
    (openCamera streamonFails VideoMode.RAW16 SensorType.Boson640 Handle.init).2.calls
      = [Call.open_dev, Call.querycap, Call.s_fmt PixelFormat.Y16 640 512, Call.reqbufs 1,
         Call.querybuf 0, Call.mmap, Call.streamon] ∧
    (onInit streamonFails "RAW16" "Boson_640").capture_timer = false ∧
    (onInit streamonFails "RAW16" "Boson_640").shutdown = true ∧
    (onInit streamonFails "RAW16" "Boson_640").handle.streaming = false ∧
    (onInit goodDevice "RAW16" "Boson_640").capture_timer = true := by
  have h := openCamera_aborts_on_first_failure streamonFails VideoMode.RAW16
    SensorType.Boson640
  have h5 := h.2.2.2.2 rfl
  have h52 := h5.2 "RAW16" "Boson_640"
  exact ⟨rfl, h5.1, h.2.1.trans (by decide), h52.1, h52.2.1, h52.2.2, by decide⟩

/-! ## No wrap-around in the second pass -/

theorem value4_eq_value5 (value3 max1 min1 : Nat) :
    value4 value3 max1 min1
      = umul 255 (usub (value5 value3 max1 min1) min1) / usub max1 min1 := rfl

theorem value5_bounds (value3 max1 min1 : Nat) (hlt : min1 < max1) :
    min1 ≤ value5 value3 max1 min1 ∧ value5 value3 max1 min1 ≤ max1 ∧
    (value5 value3 max1 min1 = min1 ∨ value5 value3 max1 min1 ≤ value3) := by
  unfold value5
  dsimp only
  split_ifs <;> omega

/-- C11: for converted limits `min1 < max1` below `2 ^ 32` and a pixel count
below `2 ^ 16`, the clamped value `value5` lies in `[min1, max1]`, the unsigned
subtraction `value5 - min1` is the true difference, the product
`255 * (value5 - min1)` is below `2 ^ 32` and the unsigned product is the true
one, the divisor is the true `max1 - min1`, and `value4` is the true quotient,
at most 255, so that the cast to `uint8_t` keeps it; and the 8-bit pixel that
`scalePixel` writes is that quotient. -/
theorem scalePass_no_wrap_around (value3 max1 min1 : Nat)
    (hc : value3 < 65536) (hmax : max1 < UINT_MOD) (hlt : min1 < max1) :
    (min1 ≤ value5 value3 max1 min1 ∧ value5 value3 max1 min1 ≤ max1) ∧
    usub (value5 value3 max1 min1) min1 = value5 value3 max1 min1 - min1 ∧
    255 * (value5 value3 max1 min1 - min1) < 2 ^ 32 ∧
    umul 255 (usub (value5 value3 max1 min1) min1)
      = 255 * (value5 value3 max1 min1 - min1) ∧
    usub max1 min1 = max1 - min1 ∧
    value4 value3 max1 min1 = 255 * (value5 value3 max1 min1 - min1) / (max1 - min1) ∧
    value4 value3 max1 min1 ≤ 255 ∧
    value4 value3 max1 min1 % 256 = value4 value3 max1 min1 ∧
    (∀ (input_16 : Mat) (i j : Nat) (s : Scale), s.fault = false →
      count input_16 i j = value3 →
      (scalePixel input_16 max1 min1 i s j).output_8 i j
        = 255 * (value5 value3 max1 min1 - min1) / (max1 - min1)) := by
  obtain ⟨h1, h2, h3⟩ := value5_bounds value3 max1 min1 hlt
  have h5 : value5 value3 max1 min1 < UINT_MOD := Nat.lt_of_le_of_lt h2 hmax
  have hsub : usub (value5 value3 max1 min1) min1 = value5 value3 max1 min1 - min1 :=
    usub_eq _ _ h5 h1
  have hdiv : usub max1 min1 = max1 - min1 := usub_eq _ _ hmax (le_of_lt hlt)
  have hprod : 255 * (value5 value3 max1 min1 - min1) < 2 ^ 32 := by
    rcases h3 with h3 | h3
    · rw [h3]
      simp
    · have : value5 value3 max1 min1 - min1 ≤ 65535 := by omega
      omega
  have hmul : umul 255 (usub (value5 value3 max1 min1) min1)
      = 255 * (value5 value3 max1 min1 - min1) := by
    rw [hsub]
    exact Nat.mod_eq_of_lt hprod
  have hv4 : value4 value3 max1 min1
      = 255 * (value5 value3 max1 min1 - min1) / (max1 - min1) := by
    rw [value4_eq_value5, hmul, hdiv]
  have hle : value4 value3 max1 min1 ≤ 255 := by
    rw [hv4]
    apply Nat.div_le_of_le_mul
    have hd : value5 value3 max1 min1 - min1 ≤ max1 - min1 := Nat.sub_le_sub_right h2 min1
    calc 255 * (value5 value3 max1 min1 - min1)
        ≤ 255 * (max1 - min1) := Nat.mul_le_mul_left _ hd
      _ = (max1 - min1) * 255 := Nat.mul_comm _ _
  have hcast : value4 value3 max1 min1 % 256 = value4 value3 max1 min1 :=
    Nat.mod_eq_of_lt (Nat.lt_succ_of_le hle)
  refine ⟨⟨h1, h2⟩, hsub, hprod, hmul, hdiv, hv4, hle, hcast, ?_⟩
  intro input_16 i j s hs hcount
  have hd0 : usub max1 min1 ≠ 0 := by
    rw [hdiv]
    omega
  rw [scalePixel_ok input_16 max1 min1 i j s hd0 hs, hcount]
  show Mat.set s.output_8 i j (value4 value3 max1 min1 % 256) i j = _
  rw [hcast, hv4]
  simp [Mat.set]

/-- C11 at the largest count and the widest limits, `value3 = 65535`, `min1 = 0`
and `max1 = 2 ^ 32 - 1`, where the product is `255 * 65535 = 16711425`; and at
`max1 = 65535`, where the quotient is 255. -/
theorem scalePass_no_wrap_around_witness :
    ((65535 : Nat) < 65536 ∧ 4294967295 < UINT_MOD ∧ (0 : Nat) < 4294967295) ∧
    value5 65535 4294967295 0 = 65535 ∧
    umul 255 (usub (value5 65535 4294967295 0) 0) = 16711425 ∧
    value4 65535 4294967295 0 = 0 ∧
    value4 65535 65535 0 = 255 ∧
    value4 65535 65535 0 % 256 = 255 := by
  have h := scalePass_no_wrap_around 65535 4294967295 0 (by decide) (by decide) (by decide)
  have h2 := scalePass_no_wrap_around 65535 65535 0 (by decide) (by decide) (by decide)
  have hv : value5 65535 4294967295 0 = 65535 := by decide
  have hv2 : value5 65535 65535 0 = 65535 := by decide
  refine ⟨⟨by decide, by decide, by decide⟩, hv, ?_, ?_, ?_, ?_⟩
  · rw [h.2.2.2.1, hv]
  · rw [h.2.2.2.2.2.1, hv]
  · rw [h2.2.2.2.2.2.1, hv2]
  · rw [h2.2.2.2.2.2.2.2.1, h2.2.2.2.2.2.1, hv2]

end FlirBoson
